import Mathlib

/-!
# Ezee-money — verification of the synchronization/submission layer

Shallow embedding of the data-synchronization and submission code of the
Ezee-money repository (`src/js/github-service.js`, `src/js/real-time-service.js`,
`src/unnamed/part_001`).  JavaScript values are modelled by the inductive
`Val`, network responses by explicit result types passed in as environment
arguments, and exceptions by `Except JsErr`.  Each definition mirrors one
source function; theorems below settle the spec claims about them.
-/

namespace Ezee

/-- A JavaScript (JSON-like) value: `null`, booleans, strings, arrays and
objects (ordered key/value lists).  Numbers are not needed by the code
under study and are omitted. -/
inductive Val where
  | vnull
  | vbool (b : Bool)
  | vstr  (s : String)
  | vlist (vs : List Val)
  | vobj  (fields : List (String × Val))

namespace Val

/-- JavaScript truthiness of a value (`null` and `""` and `false` are falsy;
arrays and objects, including empty ones, are truthy). -/
def truthy : Val → Bool
  | .vnull     => false
  | .vbool b   => b
  | .vstr s    => s ≠ ""
  | .vlist _   => true
  | .vobj _    => true

/-- Property access `v.k`: `undefined` (modelled `none`) unless `v` is an
object with key `k`; the first binding of `k` wins, as in a JS object. -/
def field : Val → String → Option Val
  | .vobj fs, k => (fs.find? (fun p => p.1 == k)).map Prod.snd
  | _, _ => none

/-- Property assignment `v.k = x` on an object: replaces the first binding
of `k`, or appends a new one; on non-objects it is the identity (the code
only assigns on objects). -/
def setField : Val → String → Val → Val
  | .vobj fs, k, x =>
      if fs.any (fun p => p.1 == k) then
        .vobj (fs.map (fun p => if p.1 == k then (k, x) else p))
      else
        .vobj (fs ++ [(k, x)])
  | v, _, _ => v

end Val

/-- A JavaScript exception, carrying its message. -/
structure JsErr where
  msg : String
deriving DecidableEq, Repr

/-! ## Subscriber lists (`subscribe` / `notifySubscribers`)

`RealTimeService.subscribe` / `DataSyncService.subscribe` push a callback on
the `subscribers` array; `notifySubscribers(data, type)` runs
`this.subscribers.forEach(callback => { try { callback(data, type) } catch
(error) { console.error(...) } })`.  A callback is modelled by an identifier
together with a predicate saying on which arguments it throws; an
`Event` records one synchronous invocation. -/

structure Callback where
  id : Nat
  /-- Whether invoking the callback on `(data, type)` raises an exception. -/
  throws : Val → String → Bool

/-- One invocation `callback(data, type)` of a subscriber. -/
structure Event where
  cb   : Nat
  data : Val
  tag  : String

/-- `subscribe(callback)`: `this.subscribers.push(callback)` — the new
callback is appended at the end of the subscriber list. -/
def subscribe (subs : List Callback) (cb : Callback) : List Callback :=
  subs ++ [cb]

/-- Invoking one callback: the invocation event, together with the
exception it raises, if any. -/
def Callback.invoke (cb : Callback) (d : Val) (t : String) :
    Event × Option JsErr :=
  (⟨cb.id, d, t⟩, if cb.throws d t then some ⟨"Subscriber error"⟩ else none)

/-- `notifySubscribers(data, type)`: `forEach` over the subscriber list, in
order; each call is wrapped in `try { callback(data, type) } catch (error)
{ console.error(...) }`, so a raised exception is logged and dropped and the
iteration continues.  The result is the ordered trace of invocations; the
return type records that the function itself never raises. -/
def notifySubscribers (subs : List Callback) (d : Val) (t : String) :
    List Event :=
  match subs with
  | [] => []
  | cb :: rest =>
      let (ev, _err) := cb.invoke d t
      -- the catch block swallows _err: iteration continues regardless
      ev :: notifySubscribers rest d t

/-! ## Remote responses

A `fetch` of the contents API, as the code observes it: the fetch itself may
throw (network failure), or return a non-ok response with a status code, or
return an ok response whose parsed JSON body is a `Val`.  The decoding step
`JSON.parse(atob(data.content))` is modelled by an abstract function
`dp : Val → Except JsErr Val` applied to the response body, since the claims
do not depend on base64 details; it may raise (invalid base64 or invalid
JSON), exactly like the JavaScript expression. -/

inductive GetResp where
  | netErr
  | httpErr (status : Nat)
  | ok (body : Val)

/-! ## `DataSyncService` reads (`github-service.js` / `part_001`) -/

/-- `DataSyncService.getFileSHA(filePath)`: returns `data.sha` when the
response is ok, `null` otherwise (including when the fetch throws).  The
`sha` field of the body is modelled as a string when present. -/
def getFileSHA : GetResp → Option String
  | .ok body =>
      match body.field "sha" with
      | some (.vstr s) => some s
      | _ => none
  | _ => none

/-- The `try` body of `DataSyncService.getFileContent(filePath)`: non-ok
status 404 returns `null`; any other non-ok status throws; an ok response
is decoded and parsed (which may throw). -/
def dsGetFileContentTry (dp : Val → Except JsErr Val) : GetResp → Except JsErr Val
  | .netErr => .error ⟨"fetch failed"⟩
  | .httpErr status =>
      if status = 404 then .ok .vnull
      else .error ⟨"Failed to get file: " ++ toString status⟩
  | .ok body => dp body

/-- `DataSyncService.getFileContent(filePath)`: the `try` body wrapped in
`catch (error) { console.error(...); return null }` — every raised error is
swallowed and `null` is returned instead. -/
def dsGetFileContent (dp : Val → Except JsErr Val) (r : GetResp) : Val :=
  match dsGetFileContentTry dp r with
  | .ok v => v
  | .error _ => .vnull

/-- State of a `DataSyncService` as far as change detection is concerned:
the two independent last-seen SHA tokens of `this.lastKnownState`
(`dataHash` for `data.json`, `agentsHash` for `agents.json`) and the
subscriber list. -/
structure SyncState where
  dataHash   : Option String
  agentsHash : Option String
  subscribers : List Callback

/-- Environment of one `checkForChanges()` call: the responses to the four
requests it issues (a SHA probe and a content fetch for each of `data.json`
and `agents.json`) and the decode-parse function. -/
structure SyncEnv where
  dataShaResp       : GetResp
  dataContentResp   : GetResp
  agentsShaResp     : GetResp
  agentsContentResp : GetResp
  dp : Val → Except JsErr Val

/-- One tracked file inside `checkForChanges`: mirrors
`const sha = await this.getFileSHA(path); if (sha && sha !==
this.lastKnownState.hash) { this.lastKnownState.hash = sha; const data =
await this.getFileContent(path); this.notifySubscribers(data, tag); }`.
Note the JavaScript truthiness guard: an empty-string SHA is falsy and is
treated like `null`.  Returns the new recorded token and the invocation
trace. -/
def checkFile (shaResp contentResp : GetResp) (dp : Val → Except JsErr Val)
    (known : Option String) (tag : String) (subs : List Callback) :
    Option String × List Event :=
  match getFileSHA shaResp with
  | none => (known, [])
  | some sha =>
      if sha ≠ "" ∧ some sha ≠ known then
        (some sha, notifySubscribers subs (dsGetFileContent dp contentResp) tag)
      else (known, [])

/-- `DataSyncService.checkForChanges()`: checks `data.json` (tag
`submissions_updated`, token `dataHash`) and then `agents.json` (tag
`agents_updated`, token `agentsHash`); the outer `try/catch` never fires in
the model since all four helpers handle their own failures. -/
def checkForChanges (env : SyncEnv) (s : SyncState) : SyncState × List Event :=
  let (dataHash1, evs1) :=
    checkFile env.dataShaResp env.dataContentResp env.dp s.dataHash
      "submissions_updated" s.subscribers
  let (agentsHash1, evs2) :=
    checkFile env.agentsShaResp env.agentsContentResp env.dp s.agentsHash
      "agents_updated" s.subscribers
  (⟨dataHash1, agentsHash1, s.subscribers⟩, evs1 ++ evs2)

/-! ## `RealTimeService` (`real-time-service.js`) -/

/-- The `try` body of `RealTimeService.getFile(filePath)`: 404 returns
`null`, any other non-ok status throws, an ok response is decoded and
parsed only when `data.type === "file"` (otherwise `null`). -/
def rtGetFileTry (dp : Val → Except JsErr Val) : GetResp → Except JsErr Val
  | .netErr => .error ⟨"fetch failed"⟩
  | .httpErr status =>
      if status = 404 then .ok .vnull
      else .error ⟨"Failed to get file: " ++ toString status⟩
  | .ok body =>
      match body.field "type" with
      | some (.vstr ty) => if ty = "file" then dp body else .ok .vnull
      | _ => .ok .vnull

/-- `RealTimeService.getFile(filePath)`: the `try` body wrapped in
`catch (error) { console.error(...); return null }`. -/
def rtGetFile (dp : Val → Except JsErr Val) (r : GetResp) : Val :=
  match rtGetFileTry dp r with
  | .ok v => v
  | .error _ => .vnull

/-- `RealTimeService.getSubmissions()`: `data?.submissions || []` over the
result of `getFile`; since `getFile` returns rather than raising, the
surrounding `try/catch { return [] }` can never fire. -/
def rtGetSubmissions (dp : Val → Except JsErr Val) (r : GetResp) : Val :=
  match (rtGetFile dp r).field "submissions" with
  | some v => if v.truthy then v else .vlist []
  | none => .vlist []

/-- `RealTimeService.getAgents()`: `data?.agents || []` over the result of
`getFile`, like `getSubmissions`. -/
def rtGetAgents (dp : Val → Except JsErr Val) (r : GetResp) : Val :=
  match (rtGetFile dp r).field "agents" with
  | some v => if v.truthy then v else .vlist []
  | none => .vlist []

/-- State of a `RealTimeService`: the single last-seen branch identifier
`this.lastKnownHash` and the subscriber list. -/
structure RTState where
  lastKnownHash : Option String
  subscribers : List Callback

/-- `RealTimeService.hasRepositoryChanged()`, with the result of
`getBranchSHA()` (which returns `null` on any failure) passed in: returns
`false` when the fetched SHA is falsy; returns `true` and records the SHA
when a truthy last-seen hash exists and differs; otherwise records the SHA
and returns `false` — in particular the first successful fetch only records
the identifier. -/
def hasRepositoryChanged (branchSHA : Option String) (s : RTState) :
    Bool × RTState :=
  match branchSHA with
  | none => (false, s)
  | some sha =>
      if sha = "" then (false, s)
      else if (match s.lastKnownHash with
               | some old => old ≠ "" && sha ≠ old
               | none => false) then
        (true, { s with lastKnownHash := some sha })
      else
        (false, { s with lastKnownHash := some sha })

/-- Environment of one iteration of the `poll` closure in
`startRealTimePolling`: the branch-SHA fetch result and the responses to
the two `getFile` calls. -/
structure RTEnv where
  branchSHA : Option String
  submissionsResp : GetResp
  agentsResp : GetResp
  dp : Val → Except JsErr Val

/-- One iteration of the `poll` closure in
`RealTimeService.startRealTimePolling()`: when `hasRepositoryChanged()`
reports a change, `submissions.json` and `agents.json` are fetched and the
subscribers are notified for each file whose fetched body is truthy
(`if (submissions) { ... }`). -/
def pollStep (env : RTEnv) (s : RTState) : RTState × List Event :=
  let (changed, s1) := hasRepositoryChanged env.branchSHA s
  if changed then
    let subsV := rtGetFile env.dp env.submissionsResp
    let e1 := if subsV.truthy then
        notifySubscribers s1.subscribers subsV "submissions_updated" else []
    let agentsV := rtGetFile env.dp env.agentsResp
    let e2 := if agentsV.truthy then
        notifySubscribers s1.subscribers agentsV "agents_updated" else []
    (s1, e1 ++ e2)
  else (s1, [])

/-! ## Write requests and the pre-write version token (C3)

`GitHubService.uploadFile`, `RealTimeService.saveFile` and
`DataSyncService.saveFileContent` all issue a GET of the target path first
and then a PUT.  `ShaField` is the `sha` member of the serialized PUT body:
`absent` (the key is not in the JSON), `null` (the key is serialized with
value `null`, as happens when `JSON.stringify` sees `sha: null`), or an
actual token string. -/

inductive ShaField where
  | absent
  | null
  | token (s : String)
deriving DecidableEq, Repr

/-- The version token actually carried by a `sha` member (`absent` and
`null` carry none). -/
def ShaField.tokenOf : ShaField → Option String
  | .token s => some s
  | _ => none

/-- A request issued by one of the write helpers, as far as C3 is
concerned: a GET of a path, or a PUT of a path with a `sha` member. -/
inductive Req where
  | get (path : String)
  | put (path : String) (sha : ShaField)
deriving DecidableEq, Repr

/-- The `sha` local variable after the pre-write GET: `data.sha` when the
response is ok, otherwise it keeps its initial `null` (a thrown fetch is
swallowed by the inner `try/catch`). -/
def preReadSha : GetResp → Option String
  | .ok body =>
      match body.field "sha" with
      | some (.vstr s) => some s
      | _ => none
  | _ => none

/-- `GitHubService.uploadFile(filename, content, message)`: GET the target
path, then PUT `JSON.stringify({message, content, sha})` — the `sha` key is
always serialized, as JSON `null` when no file was found. -/
def uploadFileReqs (path : String) (pre : GetResp) : List Req :=
  [ .get path,
    .put path (match preReadSha pre with
               | none => .null
               | some s => .token s) ]

/-- `DataSyncService.saveFileContent(filePath, content, message)`: same
request shape as `uploadFile` — the body always serializes the `sha` key,
as JSON `null` when no file was found. -/
def saveFileContentReqs (path : String) (pre : GetResp) : List Req :=
  [ .get path,
    .put path (match preReadSha pre with
               | none => .null
               | some s => .token s) ]

/-- `RealTimeService.saveFile(filePath, content, message)`: GET the target
path, then PUT a body in which the `sha` key is added only behind the
truthiness guard `if (sha) { body.sha = sha }` — so a `null` and also an
empty-string SHA leave the key absent. -/
def saveFileReqs (path : String) (pre : GetResp) : List Req :=
  [ .get path,
    .put path (match preReadSha pre with
               | none => .absent
               | some s => if s = "" then .absent else .token s) ]

/-- The version token carried by the first PUT of a request list. -/
def putTokenOf (reqs : List Req) : Option String :=
  (reqs.filterMap (fun r =>
    match r with
    | .put _ sha => sha.tokenOf
    | .get _ => none)).head?

/-- Outcome of the PUT request of a write helper: the fetch itself threw,
or the response was non-ok with a status and the `message` field of its
parsed error body, or it was ok with a parsed JSON body. -/
inductive PutResp where
  | netErr
  | fail (status : Nat) (errMsg : String)
  | ok (body : Val)

/-- Result semantics of `GitHubService.uploadFile` (the request shape is
`uploadFileReqs`): a non-ok PUT response raises
`Upload failed: ${errorData.message}`, and the outer `catch` rewraps any
raised error as `File upload error: ...` — the failure propagates to the
caller; on an ok response the parsed body is returned. -/
def uploadFileRun (cfgComplete : Bool) (r : PutResp) : Except JsErr Val :=
  if !cfgComplete then .error ⟨"GitHub configuration is incomplete"⟩
  else
    match r with
    | .netErr => .error ⟨"File upload error: " ++ "fetch failed"⟩
    | .fail _ m => .error ⟨"File upload error: " ++ ("Upload failed: " ++ m)⟩
    | .ok body => .ok body

/-- Result semantics of `DataSyncService.saveFileContent` (the request
shape is `saveFileContentReqs`): a non-ok PUT response raises
`Failed to save ${filePath}` and the `catch` logs and rethrows unchanged —
the failure propagates to the caller; on an ok response the parsed body is
returned. -/
def saveFileContentRun (path : String) (r : PutResp) : Except JsErr Val :=
  match r with
  | .netErr => .error ⟨"fetch failed"⟩
  | .fail _ _ => .error ⟨"Failed to save " ++ path⟩
  | .ok body => .ok body

/-- Result semantics of `RealTimeService.saveFile` (the request shape is
`saveFileReqs`): a non-ok PUT response raises
`Failed to save file: ${status} - ${errorData.message}` and the `catch`
logs and rethrows unchanged — the failure propagates to the caller; on an
ok response the parsed body is returned (the success record and the
`lastKnownHash` update built from it are not needed by the claims). -/
def saveFileRun (r : PutResp) : Except JsErr Val :=
  match r with
  | .netErr => .error ⟨"fetch failed"⟩
  | .fail status m =>
      .error ⟨"Failed to save file: " ++ toString status ++ " - " ++ m⟩
  | .ok body => .ok body

/-! ## `GitHubService.saveSubmission` and
`EnhancedSubmissionHandler.saveToDataFile` (C4) -/

/-- The file content `dataToSave` written by `saveSubmission`: the
submission list, `lastUpdated`, and `totalSubmissions =
submissions.length`. -/
structure SubmissionsFile where
  submissions : List Val
  lastUpdated : String
  totalSubmissions : Nat

/-- `submissions.push(x)`: appends when the receiver is an array, raises a
`TypeError` otherwise. -/
def jsPushList : Val → Val → Except JsErr (List Val)
  | .vlist l, x => .ok (l ++ [x])
  | _, _ => .error ⟨"TypeError: push is not a function"⟩

/-- The `newSubmission` object built by `saveSubmission`:
`{ id: ..., ...submissionData, createdAt: ... }`. -/
def newSubmissionRecord (submissionData : List (String × Val))
    (id createdAt : String) : Val :=
  .vobj (("id", .vstr id) :: submissionData ++ [("createdAt", .vstr createdAt)])

/-- `GitHubService.saveSubmission(submissionData)`, given the outcome
`readRes` of the `readFile` call (an exception from it is caught and
treated like a missing file), the constructed record `newRec`, the
timestamp `now` and whether the `uploadFile` PUT succeeded.  The read list
is used only when `existingData && existingData.submissions` is truthy;
pushing onto a truthy non-array raises, and that error (like an upload
failure) propagates as `Failed to save submission`. -/
def saveSubmission (readRes : Except JsErr Val) (newRec : Val) (now : String)
    (uploadOk : Bool) : Except JsErr SubmissionsFile :=
  let submissions0 : Val :=
    match readRes with
    | .ok existing =>
        if existing.truthy then
          match existing.field "submissions" with
          | some f => if f.truthy then f else .vlist []
          | none => .vlist []
        else .vlist []
    | .error _ => .vlist []
  match jsPushList submissions0 newRec with
  | .error e => .error ⟨"Failed to save submission: " ++ e.msg⟩
  | .ok pushed =>
      if uploadOk then .ok ⟨pushed, now, pushed.length⟩
      else .error ⟨"Failed to save submission: upload failed"⟩

/-- `EnhancedSubmissionHandler.saveToDataFile(submission, token)`: reads
`data.json`; when the response is ok the body content is parsed (`dp`,
which may raise) and the `sha` recorded, when it is non-ok the default
`{ agents: [], lastUpdated: now0 }` is used, and a thrown fetch propagates
out of the surrounding `try` (which rethrows).  Then
`submissions.agents.push(submission)` (a `TypeError` unless `agents` is an
array), `submissions.lastUpdated = now1`, and the PUT; on PUT failure the
function throws.  Returns the written content. -/
def saveToDataFile (dp : Val → Except JsErr Val) (resp : GetResp) (sub : Val)
    (now0 now1 : String) (putOk : Bool) : Except JsErr Val :=
  match (match resp with
         | .netErr => Except.error ⟨"fetch failed"⟩
         | .httpErr _ =>
             Except.ok (Val.vobj [("agents", .vlist []),
                                  ("lastUpdated", .vstr now0)])
         | .ok body => dp body : Except JsErr Val) with
  | .error e => .error e
  | .ok submissions =>
      match submissions.field "agents" with
      | some (.vlist agents) =>
          let written :=
            (submissions.setField "agents" (.vlist (agents ++ [sub]))).setField
              "lastUpdated" (.vstr now1)
          if putOk then .ok written
          else .error ⟨"Failed to save to data.json"⟩
      | _ => .error ⟨"TypeError: push is not a function"⟩

/-! ## `EnhancedSubmissionHandler.handleSubmission` (C7) -/

/-- The form fields collected for a submission. -/
structure FormData where
  fullName : String
  personalNumber : String
  email : String
  nationalId : String
  dob : String
  gender : String
  businessAddress : String
  residentialAddress : String
  nextOfKinName : String
  nextOfKinRelationship : String
  nextOfKinPhone : String

/-- A whitespace character in the sense of the `\s` class of the email
regular expression. -/
def jsSpaceChar (c : Char) : Bool :=
  c = ' ' || c = '\t' || c = '\n' || c = '\r' || c = '\x0b' || c = '\x0c'

/-- Splits a character list at every occurrence of the separator. -/
def splitOnChar (c : Char) : List Char → List (List Char)
  | [] => [[]]
  | x :: xs =>
      let r := splitOnChar c xs
      if x = c then [] :: r
      else
        match r with
        | y :: ys => (x :: y) :: ys
        | [] => [[x]]

/-- The test `/^[^\s@]+@[^\s@]+\.[^\s@]+$/.test(email)`: no whitespace
anywhere, exactly one `@` with a nonempty part before it, and a `.` in the
domain part with at least one character on each side. -/
def emailOk (s : String) : Bool :=
  let cs := s.toList
  (cs.all (fun c => !jsSpaceChar c)) &&
  (match splitOnChar '@' cs with
   | [localPart, domain] =>
       !localPart.isEmpty &&
       (List.range domain.length).any (fun i =>
         (domain.get? i == some '.') && decide (0 < i) &&
           decide (i + 1 < domain.length))
   | _ => false)

/-- `validateFormData(formData)`: each required field in order must be
truthy (nonempty), then the email must match the regular expression. -/
def validateFormData (fd : FormData) : Except JsErr Unit :=
  if fd.fullName = "" then .error ⟨"Please fill in full name"⟩
  else if fd.personalNumber = "" then .error ⟨"Please fill in personal number"⟩
  else if fd.email = "" then .error ⟨"Please fill in email"⟩
  else if fd.nationalId = "" then .error ⟨"Please fill in national id"⟩
  else if fd.dob = "" then .error ⟨"Please fill in dob"⟩
  else if fd.gender = "" then .error ⟨"Please fill in gender"⟩
  else if fd.businessAddress = "" then .error ⟨"Please fill in business address"⟩
  else if fd.residentialAddress = "" then .error ⟨"Please fill in residential address"⟩
  else if fd.nextOfKinName = "" then .error ⟨"Please fill in next of kin name"⟩
  else if fd.nextOfKinRelationship = "" then .error ⟨"Please fill in next of kin relationship"⟩
  else if fd.nextOfKinPhone = "" then .error ⟨"Please fill in next of kin phone"⟩
  else if !emailOk fd.email then .error ⟨"Please enter a valid email address"⟩
  else .ok ()

/-- Outcome of the two fallible steps of one image upload: whether
`fileToBase64` resolved and whether the PUT response was ok. -/
structure ImgOutcome where
  b64Ok : Bool
  putOk : Bool

/-- A committed remote write: an image file, or the `data.json` content. -/
inductive Effect where
  | imageCommitted (filename : String)
  | dataCommitted (content : Val)

/-- The image path built by `uploadImages`. -/
def imageFilename (subId key ts : String) : String :=
  "images/" ++ subId ++ "_" ++ key ++ "_" ++ ts ++ ".jpg"

/-- The raw URL stored for an uploaded image. -/
def imageUrl (filename : String) : String :=
  "https://raw.githubusercontent.com/BarasaGodwilTech/Ezee-money/main/" ++ filename

/-- `EnhancedSubmissionHandler.uploadImages(submissionId, imageFiles,
token)`: iterates the entries of `imageFiles` in order; falsy files are
skipped, a rejected `fileToBase64` is caught and logged (no PUT issued),
and a failed PUT is logged — in every failure case the loop continues and
the `imageUrls` entry for that key is simply missing.  Returns the URL map
and the committed image writes. -/
def uploadImages (subId : String) (files : List (String × Bool))
    (outcome : String → ImgOutcome) (ts : String) :
    List (String × String) × List Effect :=
  match files with
  | [] => ([], [])
  | (key, present) :: rest =>
      if present then
        let o := outcome key
        if o.b64Ok then
          let fn := imageFilename subId key ts
          let (urls, effs) := uploadImages subId rest outcome ts
          if o.putOk then ((key, imageUrl fn) :: urls, .imageCommitted fn :: effs)
          else (urls, effs)
        else uploadImages subId rest outcome ts
      else uploadImages subId rest outcome ts

/-- The `submission` object built by `handleSubmission` before the image
URLs are attached. -/
def submissionRecord (fd : FormData) (id date : String) : Val :=
  .vobj [ ("id", .vstr id),
          ("fullName", .vstr fd.fullName),
          ("personalNumber", .vstr fd.personalNumber),
          ("email", .vstr fd.email),
          ("nationalId", .vstr fd.nationalId),
          ("dob", .vstr fd.dob),
          ("gender", .vstr fd.gender),
          ("businessAddress", .vstr fd.businessAddress),
          ("residentialAddress", .vstr fd.residentialAddress),
          ("nextOfKinName", .vstr fd.nextOfKinName),
          ("nextOfKinRelationship", .vstr fd.nextOfKinRelationship),
          ("nextOfKinPhone", .vstr fd.nextOfKinPhone),
          ("tradingName", .vstr ("SC" ++ fd.personalNumber)),
          ("submissionDate", .vstr date),
          ("status", .vstr "pending"),
          ("emailVerified", .vbool false),
          ("adminVerified", .vbool false) ]

/-- `EnhancedSubmissionHandler.handleSubmission(formData, imageFiles)`:
config token check, `validateFormData`, `uploadImages` (each image a
separate PUT, failures swallowed), then the URL fields are attached with
`imageUrls.key || ""` and `saveToDataFile` performs the single metadata
write (whose failure propagates).  Returns the result together with the
committed remote writes, in order. -/
def handleSubmission (tokenPresent : Bool) (fd : FormData)
    (files : List (String × Bool)) (outcome : String → ImgOutcome)
    (dresp : GetResp) (dp : Val → Except JsErr Val) (savePutOk : Bool)
    (id ts date now0 now1 : String) : Except JsErr String × List Effect :=
  if !tokenPresent then
    (.error ⟨"GitHub configuration not found. Please contact admin."⟩, [])
  else
    match validateFormData fd with
    | .error e => (.error e, [])
    | .ok _ =>
        let (urls, effs) := uploadImages id files outcome ts
        let sub1 :=
          (((submissionRecord fd id date).setField "idFrontUrl"
              (.vstr ((urls.lookup "idFront").getD ""))).setField "idBackUrl"
              (.vstr ((urls.lookup "idBack").getD ""))).setField "agentPhotoUrl"
              (.vstr ((urls.lookup "agentPhoto").getD ""))
        match saveToDataFile dp dresp sub1 now0 now1 savePutOk with
        | .ok written => (.ok id, effs ++ [.dataCommitted written])
        | .error e => (.error e, effs)

/-! ## `GitHubService.readFile` (C9) -/

/-- What `readFile` resolves to: `null`, a parsed JSON value, or the raw
decoded string. -/
inductive ReadResult where
  | rnull
  | rjson (v : Val)
  | rraw (s : String)

/-- The `try` body of `GitHubService.readFile(filename)`: 404 returns
`null`; any other non-ok status throws `Read failed`; on an ok response the
`content` field (a base64 string, or absent, per the contents API) is
checked for truthiness, decoded with `atob` (`atobF`, which may raise on
invalid base64 — and then the retry inside the inner `catch` raises
again), and parsed as JSON (`parseF`), falling back to the raw decoded
string when parsing fails. -/
def readFileTry (atobF : String → Except JsErr String)
    (parseF : String → Option Val) : GetResp → Except JsErr ReadResult
  | .netErr => .error ⟨"fetch failed"⟩
  | .httpErr status =>
      if status = 404 then .ok .rnull
      else .error ⟨"Read failed: " ++ toString status⟩
  | .ok body =>
      match body.field "content" with
      | some (.vstr c) =>
          if c ≠ "" then
            match atobF c with
            | .ok decoded =>
                match parseF decoded with
                | some v => .ok (.rjson v)
                | none => .ok (.rraw decoded)
            | .error e => .error e
          else .ok .rnull
      | _ => .ok .rnull

/-- `GitHubService.readFile(filename)`: the configuration check, then the
`try` body with the outer `catch` rewrapping every raised error as
`File read error: ...` — the error still propagates to the caller. -/
def readFile (cfgComplete : Bool) (atobF : String → Except JsErr String)
    (parseF : String → Option Val) (resp : GetResp) :
    Except JsErr ReadResult :=
  if !cfgComplete then .error ⟨"GitHub configuration is incomplete"⟩
  else
    match readFileTry atobF parseF resp with
    | .ok r => .ok r
    | .error e => .error ⟨"File read error: " ++ e.msg⟩

/-! ## `FieldAgentLoginHandler.authenticate` (C10) -/

/-- Truthiness of `config.token` (absent or empty is falsy). -/
def optTruthy : Option String → Bool
  | some s => s ≠ ""
  | none => false

/-- The predicate of the `find` call in `authenticate`, with JavaScript
short-circuiting: `a.scCode.toLowerCase()` raises a `TypeError` when
`scCode` is not a string; `a.fullName.toLowerCase()` is only evaluated
when the `scCode` comparison succeeded; the `password` and `status` strict
equalities are `false` (not errors) on non-string fields. -/
def agentPred (sc fn pw : String) (a : Val) : Except JsErr Bool :=
  match a.field "scCode" with
  | some (.vstr asc) =>
      if asc.toLower ≠ sc.toLower then .ok false
      else
        match a.field "fullName" with
        | some (.vstr afn) =>
            if afn.toLower ≠ fn.toLower then .ok false
            else
              let pwEq :=
                match a.field "password" with
                | some (.vstr s) => s == pw
                | _ => false
              let stEq :=
                match a.field "status" with
                | some (.vstr s) => s == "active"
                | _ => false
              .ok (pwEq && stEq)
        | _ => .error ⟨"TypeError: toLowerCase is not a function"⟩
  | _ => .error ⟨"TypeError: toLowerCase is not a function"⟩

/-- `Array.prototype.find`: first element satisfying the predicate,
`undefined` (modelled `none`) when there is none; a predicate exception
aborts the scan. -/
def jsFind (p : Val → Except JsErr Bool) : List Val → Except JsErr (Option Val)
  | [] => .ok none
  | v :: rest =>
      match p v with
      | .error e => .error e
      | .ok b => if b then .ok (some v) else jsFind p rest

/-- `FieldAgentLoginHandler.authenticate(scCode, fullName, password)`: the
config token must be truthy, the `agents.json` content (`agentsData`, the
result of `getFileContent`) and its `agents` field must be truthy, and the
matching record of the `find` call is returned (`undefined` when none
matches); calling `find` on a truthy non-array raises. -/
def authenticate (token : Option String) (agentsData : Val)
    (sc fn pw : String) : Except JsErr (Option Val) :=
  if !optTruthy token then
    .error ⟨"System configuration error. Please contact admin."⟩
  else if !agentsData.truthy then
    .error ⟨"No agents found in system"⟩
  else
    match agentsData.field "agents" with
    | none => .error ⟨"No agents found in system"⟩
    | some ag =>
        if !ag.truthy then .error ⟨"No agents found in system"⟩
        else
          match ag with
          | .vlist l => jsFind (agentPred sc fn pw) l
          | _ => .error ⟨"TypeError: find is not a function"⟩

/-- An agent record on which the `find` predicate of `authenticate` cannot
raise: its `scCode` and `fullName` are strings (only those two are
subjected to `toLowerCase`). -/
def agentComparable (a : Val) : Bool :=
  (match a.field "scCode" with
   | some (.vstr _) => true
   | _ => false) &&
  (match a.field "fullName" with
   | some (.vstr _) => true
   | _ => false)

/-- The matching condition of `authenticate` as a boolean predicate:
case-insensitive `scCode` and `fullName`, exact `password`, and `status`
exactly `active`. -/
def agentMatches (sc fn pw : String) (a : Val) : Bool :=
  (match a.field "scCode" with
   | some (.vstr s) => s.toLower == sc.toLower
   | _ => false) &&
  (match a.field "fullName" with
   | some (.vstr s) => s.toLower == fn.toLower
   | _ => false) &&
  (match a.field "password" with
   | some (.vstr s) => s == pw
   | _ => false) &&
  (match a.field "status" with
   | some (.vstr s) => s == "active"
   | _ => false)

/-- A valid filled form, used to exercise `handleSubmission` on concrete
executions. -/
def sampleForm : FormData :=
  ⟨"Jane Doe", "1234", "jane@site.co", "CM123", "2000-01-01", "female",
   "Market St", "Hill Rd", "John Doe", "brother", "0700000000"⟩

theorem notifySubscribers_eq_map (subs : List Callback) (d : Val) (t : String) :
    notifySubscribers subs d t = subs.map (fun cb => ⟨cb.id, d, t⟩) := by
  induction subs with
  | nil => rfl
  | cons cb rest ih => simp [notifySubscribers, Callback.invoke, ih]

/-- C5. Subscriber callbacks are invoked synchronously in registration
order: for every subscriber list produced by a sequence of `subscribe`
calls starting from the empty list, `notifySubscribers(data, type)`
produces exactly one invocation per registered callback, with the arguments
`(data, type)`, in the order in which the callbacks were registered. -/
theorem notify_in_registration_order (cbs : List Callback) (d : Val) (t : String) :
    notifySubscribers (cbs.foldl subscribe []) d t
      = cbs.map (fun cb => ⟨cb.id, d, t⟩) := by
  have hfold : ∀ (acc : List Callback), cbs.foldl subscribe acc = acc ++ cbs := by
    induction cbs with
    | nil => intro acc; simp [List.foldl]
    | cons c rest ih => intro acc; simp [List.foldl, subscribe, ih]
  rw [hfold [], List.nil_append, notifySubscribers_eq_map]

/-- C8. A throwing subscriber does not disrupt notification: whatever
subscribers are registered and whichever of them throw, every registered
callback — in particular every callback registered after a throwing one —
is still invoked with the same `(data, type)` arguments, and
`notifySubscribers` returns its full trace normally (its total return type
`List Event` reflects that no subscriber exception propagates).  Stated for
an arbitrary throwing position `i`. -/
theorem notify_survives_throwing_callback (subs : List Callback) (d : Val)
    (t : String) (i : Nat) (hi : i < subs.length)
    (_hthrows : (subs.get ⟨i, hi⟩).throws d t = true) :
    notifySubscribers subs d t = subs.map (fun cb => ⟨cb.id, d, t⟩) ∧
      ∀ (j : Nat) (hj : j < subs.length), i < j →
        (notifySubscribers subs d t).get? j
          = some ⟨(subs.get ⟨j, hj⟩).id, d, t⟩ := by
  refine ⟨notifySubscribers_eq_map subs d t, ?_⟩
  intro j hj _hij
  rw [notifySubscribers_eq_map]
  rw [List.get?_eq_get (by simpa using hj)]
  simp

/-- Witness for C8: a concrete two-callback list whose first callback
always throws; the second is still invoked. -/
theorem notify_survives_throwing_callback_witness :
    (0 : Nat) < ([⟨0, fun _ _ => true⟩, ⟨1, fun _ _ => false⟩] :
        List Callback).length ∧
      notifySubscribers [⟨0, fun _ _ => true⟩, ⟨1, fun _ _ => false⟩]
          .vnull "agents_updated"
        = [⟨0, .vnull, "agents_updated"⟩, ⟨1, .vnull, "agents_updated"⟩] := by
  refine ⟨by decide, ?_⟩
  have h := notify_survives_throwing_callback
    [⟨0, fun _ _ => true⟩, ⟨1, fun _ _ => false⟩] .vnull "agents_updated"
    0 (by decide) (by rfl)
  rw [h.1]
  rfl

theorem filter_notify_tag (subs : List Callback) (d : Val) (t t' : String) :
    (notifySubscribers subs d t').filter (fun e => e.tag == t)
      = if t' = t then notifySubscribers subs d t' else [] := by
  induction subs with
  | nil => simp [notifySubscribers]
  | cons cb rest ih =>
      simp only [notifySubscribers, Callback.invoke, List.filter_cons]
      by_cases h : t' = t
      · subst h
        simp [ih]
      · simp [h, ih]

theorem checkFile_changed (shaResp contentResp : GetResp)
    (dp : Val → Except JsErr Val) (known : Option String) (tag : String)
    (subs : List Callback) (sha : String) (h : getFileSHA shaResp = some sha)
    (h1 : sha ≠ "") (h2 : some sha ≠ known) :
    checkFile shaResp contentResp dp known tag subs
      = (some sha,
         notifySubscribers subs (dsGetFileContent dp contentResp) tag) := by
  simp [checkFile, h, h1, h2]

theorem checkFile_unchanged (shaResp contentResp : GetResp)
    (dp : Val → Except JsErr Val) (known : Option String) (tag : String)
    (subs : List Callback)
    (h : getFileSHA shaResp = none ∨ getFileSHA shaResp = some "" ∨
         getFileSHA shaResp = known) :
    checkFile shaResp contentResp dp known tag subs = (known, []) := by
  rcases h with h | h | h
  · simp [checkFile, h]
  · simp [checkFile, h]
  · cases hk : getFileSHA shaResp with
    | none => simp [checkFile, hk]
    | some sha =>
        rw [hk] at h
        simp [checkFile, hk, ← h]

theorem checkFile_snd_filter_ne (shaResp contentResp : GetResp)
    (dp : Val → Except JsErr Val) (known : Option String) (tag tag' : String)
    (subs : List Callback) (hne : tag ≠ tag') :
    ((checkFile shaResp contentResp dp known tag subs).2.filter
      (fun e => e.tag == tag')) = [] := by
  unfold checkFile
  cases getFileSHA shaResp with
  | none => simp
  | some sha =>
      by_cases hc : sha ≠ "" ∧ some sha ≠ known
      · simp [hc, filter_notify_tag, hne]
      · simp [hc]

/-- C1, counterexample. The claim says a non-null fetched SHA that differs
from the recorded one always triggers an update and a notification; but
the guard in `checkForChanges` is the JavaScript truthiness test
`if (dataSHA && ...)`, so when the SHA probe of `data.json` yields the
(non-null) empty string while `"abc"` is recorded, nothing is updated and
no callback is invoked. -/
theorem checkForChanges_empty_sha_counterexample :
    getFileSHA (GetResp.ok (.vobj [("sha", .vstr "")])) = some "" ∧
    (some "" : Option String) ≠ some "abc" ∧
    (checkForChanges
        ⟨.ok (.vobj [("sha", .vstr "")]), .netErr, .netErr, .netErr,
          fun _ => .ok .vnull⟩
        ⟨some "abc", none, [⟨0, fun _ _ => false⟩]⟩).1.dataHash = some "abc" ∧
    (checkForChanges
        ⟨.ok (.vobj [("sha", .vstr "")]), .netErr, .netErr, .netErr,
          fun _ => .ok .vnull⟩
        ⟨some "abc", none, [⟨0, fun _ _ => false⟩]⟩).2 = [] :=
  ⟨rfl, by decide, rfl, rfl⟩

/-- C1, amended. For each tracked file (`data.json` with token `dataHash`
and tag `submissions_updated`, `agents.json` with token `agentsHash` and
tag `agents_updated`): when the freshly fetched SHA is truthy (non-null
and non-empty) and differs from the recorded one, the recorded SHA is
replaced and every registered subscriber is invoked with the fetched body
and the tag; when the fetched SHA is null, empty, or equal to the recorded
one, the recorded SHA is unchanged and no callback is invoked for that
file.  The subscriber list itself is untouched. -/
theorem checkForChanges_spec (env : SyncEnv) (s : SyncState) :
    (∀ sha, getFileSHA env.dataShaResp = some sha → sha ≠ "" →
      some sha ≠ s.dataHash →
      (checkForChanges env s).1.dataHash = some sha ∧
      ((checkForChanges env s).2.filter
          (fun e => e.tag == "submissions_updated"))
        = s.subscribers.map (fun cb =>
            ⟨cb.id, dsGetFileContent env.dp env.dataContentResp,
             "submissions_updated"⟩)) ∧
    (getFileSHA env.dataShaResp = none ∨
      getFileSHA env.dataShaResp = some "" ∨
      getFileSHA env.dataShaResp = s.dataHash →
      (checkForChanges env s).1.dataHash = s.dataHash ∧
      ((checkForChanges env s).2.filter
          (fun e => e.tag == "submissions_updated")) = []) ∧
    (∀ sha, getFileSHA env.agentsShaResp = some sha → sha ≠ "" →
      some sha ≠ s.agentsHash →
      (checkForChanges env s).1.agentsHash = some sha ∧
      ((checkForChanges env s).2.filter (fun e => e.tag == "agents_updated"))
        = s.subscribers.map (fun cb =>
            ⟨cb.id, dsGetFileContent env.dp env.agentsContentResp,
             "agents_updated"⟩)) ∧
    (getFileSHA env.agentsShaResp = none ∨
      getFileSHA env.agentsShaResp = some "" ∨
      getFileSHA env.agentsShaResp = s.agentsHash →
      (checkForChanges env s).1.agentsHash = s.agentsHash ∧
      ((checkForChanges env s).2.filter
          (fun e => e.tag == "agents_updated")) = []) ∧
    (checkForChanges env s).1.subscribers = s.subscribers := by
  refine ⟨?_, ?_, ?_, ?_, rfl⟩
  · intro sha h h1 h2
    have hd := checkFile_changed env.dataShaResp env.dataContentResp env.dp
      s.dataHash "submissions_updated" s.subscribers sha h h1 h2
    refine ⟨by simp [checkForChanges, hd], ?_⟩
    simp [checkForChanges, hd, List.filter_append,
      checkFile_snd_filter_ne env.agentsShaResp env.agentsContentResp env.dp
        s.agentsHash "agents_updated" "submissions_updated" s.subscribers
        (by decide),
      filter_notify_tag, notifySubscribers_eq_map]
  · intro h
    have hd := checkFile_unchanged env.dataShaResp env.dataContentResp env.dp
      s.dataHash "submissions_updated" s.subscribers h
    refine ⟨by simp [checkForChanges, hd], ?_⟩
    simp [checkForChanges, hd, List.filter_append,
      checkFile_snd_filter_ne env.agentsShaResp env.agentsContentResp env.dp
        s.agentsHash "agents_updated" "submissions_updated" s.subscribers
        (by decide)]
  · intro sha h h1 h2
    have ha := checkFile_changed env.agentsShaResp env.agentsContentResp env.dp
      s.agentsHash "agents_updated" s.subscribers sha h h1 h2
    refine ⟨by simp [checkForChanges, ha], ?_⟩
    simp [checkForChanges, ha, List.filter_append,
      checkFile_snd_filter_ne env.dataShaResp env.dataContentResp env.dp
        s.dataHash "submissions_updated" "agents_updated" s.subscribers
        (by decide),
      filter_notify_tag, notifySubscribers_eq_map]
  · intro h
    have ha := checkFile_unchanged env.agentsShaResp env.agentsContentResp
      env.dp s.agentsHash "agents_updated" s.subscribers h
    refine ⟨by simp [checkForChanges, ha], ?_⟩
    simp [checkForChanges, ha, List.filter_append,
      checkFile_snd_filter_ne env.dataShaResp env.dataContentResp env.dp
        s.dataHash "submissions_updated" "agents_updated" s.subscribers
        (by decide)]

/-- C1 witness: a fresh SHA `abc` for `data.json` against an empty record
replaces the token and notifies the single subscriber with the fetched
body (here `null`, from a 404 content fetch). -/
theorem checkForChanges_spec_witness :
    getFileSHA (GetResp.ok (.vobj [("sha", .vstr "abc")])) = some "abc" ∧
    (checkForChanges
        ⟨.ok (.vobj [("sha", .vstr "abc")]), .httpErr 404, .netErr, .netErr,
          fun _ => .ok .vnull⟩
        ⟨none, none, [⟨5, fun _ _ => false⟩]⟩).1.dataHash = some "abc" ∧
    ((checkForChanges
        ⟨.ok (.vobj [("sha", .vstr "abc")]), .httpErr 404, .netErr, .netErr,
          fun _ => .ok .vnull⟩
        ⟨none, none, [⟨5, fun _ _ => false⟩]⟩).2.filter
        (fun e => e.tag == "submissions_updated"))
      = [⟨5, .vnull, "submissions_updated"⟩] := by
  have h := (checkForChanges_spec
      ⟨.ok (.vobj [("sha", .vstr "abc")]), .httpErr 404, .netErr, .netErr,
        fun _ => .ok .vnull⟩
      ⟨none, none, [⟨5, fun _ _ => false⟩]⟩).1 "abc" rfl (by decide) (by decide)
  exact ⟨rfl, h.1, by rw [h.2]; rfl⟩

/-- C2, counterexample. On the first poll that successfully fetches a
branch SHA (`lastKnownHash` still null), `hasRepositoryChanged` only
records the identifier and reports no change, so no subscriber is
notified — contrary to the claim.  Moreover even when a change is
reported, the guard `if (submissions) {...}` is a truthiness test, so a
file is skipped not only when its fetched body is null — with
`submissions.json` failing (status 500) only the `agents_updated`
notification goes out — but also when its body is non-null yet falsy:
with `submissions.json` parsing to the empty string and `agents.json`
absent, nobody is notified at all. -/
theorem pollStep_first_poll_counterexample :
    (pollStep ⟨some "a", .ok (.vobj [("type", .vstr "file")]),
        .ok (.vobj [("type", .vstr "file")]), fun b => .ok b⟩
        ⟨none, [⟨0, fun _ _ => false⟩]⟩).1.lastKnownHash = some "a" ∧
    (pollStep ⟨some "a", .ok (.vobj [("type", .vstr "file")]),
        .ok (.vobj [("type", .vstr "file")]), fun b => .ok b⟩
        ⟨none, [⟨0, fun _ _ => false⟩]⟩).2 = [] ∧
    (pollStep ⟨some "b", .httpErr 500, .ok (.vobj [("type", .vstr "file")]),
        fun b => .ok b⟩
        ⟨some "a", [⟨0, fun _ _ => false⟩]⟩).2
      = [⟨0, .vobj [("type", .vstr "file")], "agents_updated"⟩] ∧
    rtGetFile (fun _ => .ok (.vstr ""))
        (.ok (.vobj [("type", .vstr "file")])) = .vstr "" ∧
    (pollStep ⟨some "b", .ok (.vobj [("type", .vstr "file")]),
        .httpErr 404, fun _ => .ok (.vstr "")⟩
        ⟨some "a", [⟨0, fun _ _ => false⟩]⟩).2 = [] :=
  ⟨rfl, rfl, rfl, rfl, rfl⟩

/-- C2, amended. When a truthy branch SHA is fetched and a truthy
last-seen identifier exists and differs, the identifier is replaced and,
for each of `submissions.json` and `agents.json` whose fetched body is
truthy, every registered subscriber is notified with that body and the
tags `submissions_updated` / `agents_updated` respectively; the first
poll that successfully fetches a SHA only records it and notifies nobody;
when the SHA fetch fails nothing changes; and when the fetched identifier
equals the last-seen one it is re-recorded but nobody is notified. -/
theorem pollStep_spec (env : RTEnv) (s : RTState) :
    (∀ old sha, s.lastKnownHash = some old → old ≠ "" →
      env.branchSHA = some sha → sha ≠ "" → sha ≠ old →
      (pollStep env s).1.lastKnownHash = some sha ∧
      (pollStep env s).2
        = (if (rtGetFile env.dp env.submissionsResp).truthy then
             s.subscribers.map (fun cb =>
               ⟨cb.id, rtGetFile env.dp env.submissionsResp,
                "submissions_updated"⟩)
           else [])
          ++ (if (rtGetFile env.dp env.agentsResp).truthy then
             s.subscribers.map (fun cb =>
               ⟨cb.id, rtGetFile env.dp env.agentsResp, "agents_updated"⟩)
           else [])) ∧
    (∀ sha, s.lastKnownHash = none → env.branchSHA = some sha → sha ≠ "" →
      (pollStep env s).1.lastKnownHash = some sha ∧
      (pollStep env s).2 = []) ∧
    (env.branchSHA = none → (pollStep env s).1 = s ∧ (pollStep env s).2 = []) ∧
    (∀ sha, env.branchSHA = some sha → sha ≠ "" →
      s.lastKnownHash = some sha →
      (pollStep env s).1.lastKnownHash = some sha ∧
      (pollStep env s).2 = []) ∧
    (pollStep env s).1.subscribers = s.subscribers := by
  refine ⟨?_, ?_, ?_, ?_, ?_⟩
  · intro old sha hold holdne hsha hshane hdiff
    have hch : hasRepositoryChanged env.branchSHA s
        = (true, { s with lastKnownHash := some sha }) := by
      simp [hasRepositoryChanged, hsha, hold, hshane, holdne, hdiff]
    refine ⟨by simp [pollStep, hch], ?_⟩
    simp [pollStep, hch, notifySubscribers_eq_map]
  · intro sha hnone hsha hshane
    have hch : hasRepositoryChanged env.branchSHA s
        = (false, { s with lastKnownHash := some sha }) := by
      simp [hasRepositoryChanged, hsha, hnone, hshane]
    exact ⟨by simp [pollStep, hch], by simp [pollStep, hch]⟩
  · intro hnone
    have hch : hasRepositoryChanged env.branchSHA s = (false, s) := by
      simp [hasRepositoryChanged, hnone]
    exact ⟨by simp [pollStep, hch], by simp [pollStep, hch]⟩
  · intro sha hsha hshane hold
    have hch : hasRepositoryChanged env.branchSHA s
        = (false, { s with lastKnownHash := some sha }) := by
      simp [hasRepositoryChanged, hsha, hold, hshane]
    exact ⟨by simp [pollStep, hch], by simp [pollStep, hch]⟩
  · have hpres : (hasRepositoryChanged env.branchSHA s).2.subscribers
        = s.subscribers := by
      unfold hasRepositoryChanged
      cases env.branchSHA with
      | none => rfl
      | some sha =>
          dsimp only
          split
          · rfl
          · split <;> rfl
    cases hch : hasRepositoryChanged env.branchSHA s with
    | mk changed s1 =>
        rw [hch] at hpres
        by_cases hc : changed = true <;> simp [pollStep, hch, hc] <;>
          exact hpres

/-- C2 witness: a changed branch SHA with both file bodies truthy notifies
the single subscriber twice, in file order. -/
theorem pollStep_spec_witness :
    (pollStep ⟨some "b", .ok (.vobj [("type", .vstr "file")]),
        .ok (.vobj [("type", .vstr "file")]), fun b => .ok b⟩
        ⟨some "a", [⟨3, fun _ _ => false⟩]⟩).1.lastKnownHash = some "b" ∧
    (pollStep ⟨some "b", .ok (.vobj [("type", .vstr "file")]),
        .ok (.vobj [("type", .vstr "file")]), fun b => .ok b⟩
        ⟨some "a", [⟨3, fun _ _ => false⟩]⟩).2
      = [⟨3, .vobj [("type", .vstr "file")], "submissions_updated"⟩,
         ⟨3, .vobj [("type", .vstr "file")], "agents_updated"⟩] := by
  have h := (pollStep_spec
      ⟨some "b", .ok (.vobj [("type", .vstr "file")]),
        .ok (.vobj [("type", .vstr "file")]), fun b => .ok b⟩
      ⟨some "a", [⟨3, fun _ _ => false⟩]⟩).1 "a" "b" rfl (by decide) rfl
      (by decide) (by decide)
  exact ⟨h.1, by rw [h.2]; rfl⟩

/-- C3, counterexample. The claim says the PUT body carries the SHA
returned by the pre-write read; but when the read of the target path
returns an ok response whose `sha` field is the empty string,
`RealTimeService.saveFile` drops it at the truthiness guard
`if (sha) { body.sha = sha }` and issues the PUT without the token. -/
theorem saveFile_empty_sha_counterexample :
    preReadSha (.ok (.vobj [("sha", .vstr "")])) = some "" ∧
      putTokenOf (saveFileReqs "data.json" (.ok (.vobj [("sha", .vstr "")])))
        ≠ preReadSha (.ok (.vobj [("sha", .vstr "")])) := by
  constructor
  · rfl
  · intro h
    simp [saveFileReqs, putTokenOf, preReadSha, Val.field, ShaField.tokenOf] at h

/-- C3, amended. Every one of the three write helpers issues a GET of the
target path first; `uploadFile` and `saveFileContent` always serialize the
`sha` member with exactly the value recorded from that read (JSON `null`
when no file was found, so no version token is carried then), while
`saveFile` carries the recorded SHA exactly when it is non-empty and
otherwise omits the member, again carrying no token. -/
theorem write_put_carries_fresh_token (path : String) (pre : GetResp) :
    (uploadFileReqs path pre).head? = some (.get path) ∧
    (saveFileContentReqs path pre).head? = some (.get path) ∧
    (saveFileReqs path pre).head? = some (.get path) ∧
    putTokenOf (uploadFileReqs path pre) = preReadSha pre ∧
    putTokenOf (saveFileContentReqs path pre) = preReadSha pre ∧
    putTokenOf (saveFileReqs path pre)
      = (preReadSha pre).bind (fun s => if s = "" then none else some s) := by
  refine ⟨rfl, rfl, rfl, ?_, ?_, ?_⟩
  · cases h : preReadSha pre <;>
      simp [uploadFileReqs, putTokenOf, ShaField.tokenOf, h]
  · cases h : preReadSha pre <;>
      simp [saveFileContentReqs, putTokenOf, ShaField.tokenOf, h]
  · cases h : preReadSha pre
    · simp [saveFileReqs, putTokenOf, ShaField.tokenOf, h]
    · rename_i s
      by_cases hs : s = "" <;>
        simp [saveFileReqs, putTokenOf, ShaField.tokenOf, h, hs]

/-- C6, counterexample. On a non-ok, non-404 response (status 500) the
`try` bodies of `DataSyncService.getFileContent` and
`RealTimeService.getFile` do raise, but the surrounding `catch` blocks
swallow the error: `getFileContent` returns `null`, and
`getSubmissions`/`getAgents` return `[]` — nothing propagates to the
caller, contradicting the claim that these operations raise. -/
theorem read_failures_swallowed_counterexample :
    dsGetFileContentTry (fun _ => Except.ok Val.vnull) (.httpErr 500)
        = .error ⟨"Failed to get file: 500"⟩ ∧
      dsGetFileContent (fun _ => Except.ok Val.vnull) (.httpErr 500) = .vnull ∧
      rtGetFileTry (fun _ => Except.ok Val.vnull) (.httpErr 500)
        = .error ⟨"Failed to get file: 500"⟩ ∧
      rtGetSubmissions (fun _ => Except.ok Val.vnull) (.httpErr 500) = .vlist [] ∧
      rtGetAgents (fun _ => Except.ok Val.vnull) (.httpErr 500) = .vlist [] :=
  ⟨rfl, rfl, rfl, rfl, rfl⟩

/-- C6, amended. Failures inside the read helpers are not surfaced: on any
non-ok, non-404 response (and on a thrown fetch) the error raised inside
the `try` body is caught and `DataSyncService.getFileContent` returns
`null` while `RealTimeService.getSubmissions`/`getAgents` return the empty
list; the write operations, in contrast, all propagate their failures to
the caller: `saveSubmission`, `saveToDataFile`, `uploadFile`,
`saveFileContent` and `saveFile` raise on a failed PUT (and on a thrown
fetch of the PUT). -/
theorem read_failures_swallowed (dp : Val → Except JsErr Val) (st : Nat)
    (hst : st ≠ 404) :
    (∃ e, dsGetFileContentTry dp (.httpErr st) = .error e) ∧
    dsGetFileContent dp (.httpErr st) = .vnull ∧
    dsGetFileContent dp .netErr = .vnull ∧
    rtGetSubmissions dp (.httpErr st) = .vlist [] ∧
    rtGetAgents dp (.httpErr st) = .vlist [] ∧
    (∀ rec now, ∃ e, saveSubmission (.ok .vnull) rec now false = .error e) ∧
    (∀ sub now0 now1, ∃ e,
      saveToDataFile dp (.httpErr st) sub now0 now1 false = .error e) ∧
    (∀ (st2 : Nat) (m : String),
      uploadFileRun true (.fail st2 m)
        = .error ⟨"File upload error: " ++ ("Upload failed: " ++ m)⟩) ∧
    (∀ (path : String) (st2 : Nat) (m : String),
      saveFileContentRun path (.fail st2 m)
        = .error ⟨"Failed to save " ++ path⟩) ∧
    (∀ (st2 : Nat) (m : String),
      saveFileRun (.fail st2 m)
        = .error ⟨"Failed to save file: " ++ toString st2 ++ " - " ++ m⟩) ∧
    uploadFileRun true .netErr
      = .error ⟨"File upload error: " ++ "fetch failed"⟩ ∧
    (∀ path : String, saveFileContentRun path .netErr
      = .error ⟨"fetch failed"⟩) ∧
    saveFileRun .netErr = .error ⟨"fetch failed"⟩ := by
  refine ⟨⟨⟨"Failed to get file: " ++ toString st⟩, ?_⟩, ?_, rfl, ?_, ?_,
    fun rec now => ⟨⟨"Failed to save submission: upload failed"⟩, rfl⟩,
    fun sub now0 now1 => ⟨⟨"Failed to save to data.json"⟩, rfl⟩,
    fun st2 m => rfl, fun path st2 m => rfl, fun st2 m => rfl,
    rfl, fun path => rfl, rfl⟩ <;>
    simp [dsGetFileContentTry, dsGetFileContent, rtGetFileTry, rtGetFile,
      rtGetSubmissions, rtGetAgents, hst, Val.field]

/-- C6 witness: the theorem applied at status 500 with a trivial parser. -/
theorem read_failures_swallowed_witness :
    (500 : Nat) ≠ 404 ∧
      dsGetFileContent (fun _ => Except.ok Val.vnull) (.httpErr 500) = .vnull :=
  ⟨by decide,
   (read_failures_swallowed (fun _ => Except.ok Val.vnull) 500 (by decide)).2.1⟩

/-- C7. A form submission is not transactional.  First execution: the
single image upload succeeds (its PUT is committed) but the metadata write
to `data.json` fails, `handleSubmission` raises, and no submission record
is committed — the image is orphaned.  Second execution: the image PUT
fails (swallowed by `uploadImages`), yet `handleSubmission` succeeds and
the committed `data.json` record carries the empty string as that image
URL. -/
theorem handleSubmission_not_transactional :
    ((handleSubmission true sampleForm [("idFront", true)] (fun _ => ⟨true, true⟩)
        (.httpErr 404) (fun _ => .error ⟨"unused"⟩) false
        "AGENT-1" "7" "D" "T0" "T1").1
      = .error ⟨"Failed to save to data.json"⟩) ∧
    ((handleSubmission true sampleForm [("idFront", true)] (fun _ => ⟨true, true⟩)
        (.httpErr 404) (fun _ => .error ⟨"unused"⟩) false
        "AGENT-1" "7" "D" "T0" "T1").2
      = [.imageCommitted "images/AGENT-1_idFront_7.jpg"]) ∧
    ((handleSubmission true sampleForm [("idFront", true)] (fun _ => ⟨true, false⟩)
        (.httpErr 404) (fun _ => .error ⟨"unused"⟩) true
        "AGENT-1" "7" "D" "T0" "T1").1 = .ok "AGENT-1") ∧
    ((handleSubmission true sampleForm [("idFront", true)] (fun _ => ⟨true, false⟩)
        (.httpErr 404) (fun _ => .error ⟨"unused"⟩) true
        "AGENT-1" "7" "D" "T0" "T1").2
      = [.dataCommitted (.vobj [("agents", .vlist
          [(((submissionRecord sampleForm "AGENT-1" "D").setField "idFrontUrl"
              (.vstr "")).setField "idBackUrl" (.vstr "")).setField
              "agentPhotoUrl" (.vstr "")]), ("lastUpdated", .vstr "T1")])]) ∧
    ((((submissionRecord sampleForm "AGENT-1" "D").setField "idFrontUrl"
        (.vstr "")).setField "idBackUrl" (.vstr "")).setField
        "agentPhotoUrl" (.vstr "")).field "idFrontUrl" = some (.vstr "") :=
  ⟨rfl, rfl, rfl, rfl, rfl⟩

theorem vobj_setField_isObj (fs : List (String × Val)) (k : String) (x : Val) :
    ∃ gs, (Val.vobj fs).setField k x = .vobj gs := by
  by_cases h : fs.any (fun p => p.1 == k) = true
  · exact ⟨fs.map (fun p => if p.1 == k then (k, x) else p),
      by simp [Val.setField, h]⟩
  · exact ⟨fs ++ [(k, x)], by simp [Val.setField, h]⟩

theorem find_map_setField (fs : List (String × Val)) (k : String) (x : Val)
    (h : fs.any (fun p => p.1 == k) = true) :
    ((fs.map (fun p => if p.1 == k then (k, x) else p)).find?
        (fun p => p.1 == k)).map Prod.snd = some x := by
  induction fs with
  | nil => simp at h
  | cons p rest ih =>
      simp only [List.map_cons]
      by_cases hp : p.1 = k
      · rw [if_pos (by simpa using hp), List.find?_cons_of_pos _ (by simp)]
        rfl
      · have h' : rest.any (fun q => q.1 == k) = true := by
          simpa [hp] using h
        rw [if_neg (by simpa using hp),
          List.find?_cons_of_neg _ (by simpa using hp)]
        exact ih h'

theorem find_map_setField_other (fs : List (String × Val)) (k k' : String)
    (x : Val) (hkk : k ≠ k') :
    ((fs.map (fun p => if p.1 == k then (k, x) else p)).find?
        (fun p => p.1 == k'))
      = fs.find? (fun p => p.1 == k') := by
  induction fs with
  | nil => rfl
  | cons p rest ih =>
      simp only [List.map_cons]
      by_cases hp : p.1 = k
      · rw [if_pos (by simpa using hp),
          List.find?_cons_of_neg _ (by simp [hkk]),
          List.find?_cons_of_neg _ (by simp [hp, hkk])]
        exact ih
      · rw [if_neg (by simpa using hp)]
        by_cases hp' : p.1 = k'
        · rw [List.find?_cons_of_pos _ (by simpa using hp'),
            List.find?_cons_of_pos _ (by simpa using hp')]
        · rw [List.find?_cons_of_neg _ (by simpa using hp'),
            List.find?_cons_of_neg _ (by simpa using hp')]
          exact ih

theorem field_setField_self (fs : List (String × Val)) (k : String) (x : Val) :
    ((Val.vobj fs).setField k x).field k = some x := by
  by_cases h : fs.any (fun p => p.1 == k) = true
  · have hset : (Val.vobj fs).setField k x
        = .vobj (fs.map (fun p => if p.1 == k then (k, x) else p)) := by
      simp [Val.setField, h]
    rw [hset]
    simpa [Val.field] using find_map_setField fs k x h
  · have hset : (Val.vobj fs).setField k x = .vobj (fs ++ [(k, x)]) := by
      simp [Val.setField, h]
    rw [hset]
    simp only [Val.field]
    rw [List.find?_append]
    have hnone : fs.find? (fun p => p.1 == k) = none := by
      rw [List.find?_eq_none]
      intro p hp hbeq
      refine h ?_
      rw [List.any_eq_true]
      exact ⟨p, hp, hbeq⟩
    simp [hnone]

theorem field_setField_other (fs : List (String × Val)) (k k' : String)
    (x : Val) (hkk : k ≠ k') :
    ((Val.vobj fs).setField k x).field k' = (Val.vobj fs).field k' := by
  by_cases h : fs.any (fun p => p.1 == k) = true
  · have hset : (Val.vobj fs).setField k x
        = .vobj (fs.map (fun p => if p.1 == k then (k, x) else p)) := by
      simp [Val.setField, h]
    rw [hset]
    simp only [Val.field]
    rw [find_map_setField_other fs k k' x hkk]
  · have hset : (Val.vobj fs).setField k x = .vobj (fs ++ [(k, x)]) := by
      simp [Val.setField, h]
    rw [hset]
    simp only [Val.field]
    rw [List.find?_append]
    cases hf : fs.find? (fun p => p.1 == k') <;> simp [hf, hkk]

/-- C4. Saving a submission is an unsynchronized read-modify-write that
overwrites the whole file.  For `GitHubService.saveSubmission`: on success
the written content is exactly the submission list read immediately before
(with each previously read record unchanged and in order) followed by the
single new record, with `totalSubmissions` equal to the length of the new
list; when no remote file existed (a `null` read, or a read that raised
and was caught) the written list holds exactly the new record.  For
`EnhancedSubmissionHandler.saveToDataFile`: on success the written content
is the object read immediately before with the new record appended to its
`agents` list and `lastUpdated` refreshed; when no remote `data.json`
existed the written `agents` list holds exactly the new record. -/
theorem saveSubmission_appends :
    (∀ (readVal : Val) (l : List Val) (rec : Val) (now : String),
      readVal.truthy = true →
      readVal.field "submissions" = some (.vlist l) →
      saveSubmission (.ok readVal) rec now true
        = .ok ⟨l ++ [rec], now, (l ++ [rec]).length⟩) ∧
    (∀ (rec : Val) (now : String),
      saveSubmission (.ok .vnull) rec now true = .ok ⟨[rec], now, 1⟩) ∧
    (∀ (rec : Val) (now : String) (e : JsErr),
      saveSubmission (.error e) rec now true = .ok ⟨[rec], now, 1⟩) ∧
    (∀ (dp : Val → Except JsErr Val) (body sub : Val) (prev : List Val)
       (fs : List (String × Val)) (now0 now1 : String),
      dp body = .ok (.vobj fs) →
      (Val.vobj fs).field "agents" = some (.vlist prev) →
      saveToDataFile dp (.ok body) sub now0 now1 true
        = .ok (((Val.vobj fs).setField "agents"
            (.vlist (prev ++ [sub]))).setField "lastUpdated" (.vstr now1)) ∧
      (((Val.vobj fs).setField "agents" (.vlist (prev ++ [sub]))).setField
          "lastUpdated" (.vstr now1)).field "agents"
        = some (.vlist (prev ++ [sub])) ∧
      (((Val.vobj fs).setField "agents" (.vlist (prev ++ [sub]))).setField
          "lastUpdated" (.vstr now1)).field "lastUpdated"
        = some (.vstr now1)) ∧
    (∀ (dp : Val → Except JsErr Val) (st : Nat) (sub : Val)
       (now0 now1 : String),
      saveToDataFile dp (.httpErr st) sub now0 now1 true
        = .ok (.vobj [("agents", .vlist [sub]),
                      ("lastUpdated", .vstr now1)])) := by
  refine ⟨?_, ?_, ?_, ?_, ?_⟩
  · intro readVal l rec now htruthy hf
    unfold saveSubmission
    dsimp only
    rw [htruthy, hf]
    simp [jsPushList, Val.truthy]
  · intro rec now
    rfl
  · intro rec now e
    rfl
  · intro dp body sub prev fs now0 now1 hdp hag
    obtain ⟨gs, hgs⟩ :=
      vobj_setField_isObj fs "agents" (.vlist (prev ++ [sub]))
    refine ⟨?_, ?_, ?_⟩
    · simp [saveToDataFile, hdp, hag]
    · rw [hgs, field_setField_other gs "lastUpdated" "agents" _ (by decide),
        ← hgs]
      exact field_setField_self fs "agents" _
    · rw [hgs]
      exact field_setField_self gs "lastUpdated" _
  · intro dp st sub now0 now1
    rfl

/-- C4 witness: a file holding one previous record gains the new record at
the end, and a fresh `data.json` is created around the single record. -/
theorem saveSubmission_appends_witness :
    (Val.vobj [("submissions", .vlist [.vstr "old"])]).truthy = true ∧
    saveSubmission (.ok (.vobj [("submissions", .vlist [.vstr "old"])]))
        (.vstr "new") "T" true
      = .ok ⟨[.vstr "old", .vstr "new"], "T", 2⟩ ∧
    saveToDataFile (fun _ => .ok (.vobj [("agents", .vlist [.vstr "p"]),
          ("lastUpdated", .vstr "T0")])) (.ok .vnull) (.vstr "q") "T0" "T1" true
      = .ok (.vobj [("agents", .vlist [.vstr "p", .vstr "q"]),
                    ("lastUpdated", .vstr "T1")]) := by
  refine ⟨rfl, ?_, ?_⟩
  · exact saveSubmission_appends.1
      (.vobj [("submissions", .vlist [.vstr "old"])]) [.vstr "old"]
      (.vstr "new") "T" rfl rfl
  · exact (saveSubmission_appends.2.2.2.1
      (fun _ => .ok (.vobj [("agents", .vlist [.vstr "p"]),
        ("lastUpdated", .vstr "T0")])) .vnull (.vstr "q") [.vstr "p"]
      [("agents", .vlist [.vstr "p"]), ("lastUpdated", .vstr "T0")]
      "T0" "T1" rfl rfl).1

/-- C9. `GitHubService.readFile` (under a complete configuration) resolves
to null exactly on a 404; every other non-ok status makes it throw; on an
ok response with truthy content the decoded content is returned parsed as
JSON when parsing succeeds and as the raw decoded string otherwise; and a
response without content (or with empty content) resolves to null. -/
theorem readFile_spec (atobF : String → Except JsErr String)
    (parseF : String → Option Val) :
    readFile true atobF parseF (.httpErr 404) = .ok .rnull ∧
    (∀ st : Nat, st ≠ 404 →
      readFile true atobF parseF (.httpErr st)
        = .error ⟨"File read error: " ++ ("Read failed: " ++ toString st)⟩) ∧
    (∀ (body : Val) (c d : String) (v : Val),
      body.field "content" = some (.vstr c) → c ≠ "" → atobF c = .ok d →
      parseF d = some v →
      readFile true atobF parseF (.ok body) = .ok (.rjson v)) ∧
    (∀ (body : Val) (c d : String),
      body.field "content" = some (.vstr c) → c ≠ "" → atobF c = .ok d →
      parseF d = none →
      readFile true atobF parseF (.ok body) = .ok (.rraw d)) ∧
    (∀ body : Val, body.field "content" = none →
      readFile true atobF parseF (.ok body) = .ok .rnull) ∧
    (∀ body : Val, body.field "content" = some (.vstr "") →
      readFile true atobF parseF (.ok body) = .ok .rnull) := by
  refine ⟨rfl, ?_, ?_, ?_, ?_, ?_⟩
  · intro st hst
    simp [readFile, readFileTry, hst]
  · intro body c d v hc hcne hat hp
    simp [readFile, readFileTry, hc, hcne, hat, hp]
  · intro body c d hc hcne hat hp
    simp [readFile, readFileTry, hc, hcne, hat, hp]
  · intro body hc
    simp [readFile, readFileTry, hc]
  · intro body hc
    simp [readFile, readFileTry, hc]

/-- C9 witness: a 500 response raises a wrapped read error, while content
that is not valid JSON comes back as the raw decoded string. -/
theorem readFile_spec_witness :
    (500 : Nat) ≠ 404 ∧
      readFile true (fun s => .ok s) (fun _ => none) (.httpErr 500)
        = .error ⟨"File read error: Read failed: 500"⟩ ∧
      readFile true (fun s => .ok s) (fun _ => none)
          (.ok (.vobj [("content", .vstr "abc")])) = .ok (.rraw "abc") := by
  refine ⟨by decide, ?_, ?_⟩
  · exact (readFile_spec (fun s => .ok s) (fun _ => none)).2.1 500 (by decide)
  · exact (readFile_spec (fun s => .ok s) (fun _ => none)).2.2.2.1
      (.vobj [("content", .vstr "abc")]) "abc" "abc" rfl (by decide) rfl rfl

theorem agentPred_eq (sc fn pw : String) (a : Val)
    (h : agentComparable a = true) :
    agentPred sc fn pw a = .ok (agentMatches sc fn pw a) := by
  unfold agentComparable at h
  rw [Bool.and_eq_true] at h
  obtain ⟨h1, h2⟩ := h
  have hsc' : ∃ s, a.field "scCode" = some (.vstr s) := by
    cases hsc : a.field "scCode" with
    | none => rw [hsc] at h1; simp at h1
    | some v =>
        cases v with
        | vstr s => exact ⟨s, rfl⟩
        | vnull => rw [hsc] at h1; simp at h1
        | vbool b => rw [hsc] at h1; simp at h1
        | vlist vs => rw [hsc] at h1; simp at h1
        | vobj fs => rw [hsc] at h1; simp at h1
  have hfn' : ∃ f, a.field "fullName" = some (.vstr f) := by
    cases hfn : a.field "fullName" with
    | none => rw [hfn] at h2; simp at h2
    | some v =>
        cases v with
        | vstr f => exact ⟨f, rfl⟩
        | vnull => rw [hfn] at h2; simp at h2
        | vbool b => rw [hfn] at h2; simp at h2
        | vlist vs => rw [hfn] at h2; simp at h2
        | vobj fs => rw [hfn] at h2; simp at h2
  obtain ⟨s, hsc⟩ := hsc'
  obtain ⟨f, hfn⟩ := hfn'
  unfold agentPred agentMatches
  rw [hsc, hfn]
  by_cases e1 : s.toLower = sc.toLower
  · by_cases e2 : f.toLower = fn.toLower
    · simp [e1, e2]
    · have c2f : (f.toLower == fn.toLower) = false := by
        rw [beq_eq_false_iff_ne]; exact e2
      simp [e1, e2, c2f]
  · have c1f : (s.toLower == sc.toLower) = false := by
      rw [beq_eq_false_iff_ne]; exact e1
    simp [e1, c1f]

theorem jsFind_eq_find? (sc fn pw : String) (l : List Val)
    (h : ∀ a ∈ l, agentComparable a = true) :
    jsFind (agentPred sc fn pw) l
      = .ok (l.find? (agentMatches sc fn pw)) := by
  induction l with
  | nil => rfl
  | cons a rest ih =>
      have ha := agentPred_eq sc fn pw a (h a (by simp))
      have hrest := ih (fun b hb => h b (by simp [hb]))
      unfold jsFind
      rw [ha]
      by_cases hm : agentMatches sc fn pw a = true
      · rw [List.find?_cons_of_pos _ hm]
        simp [hm]
      · rw [List.find?_cons_of_neg _ hm]
        simp [hm, hrest]

/-- C10. `FieldAgentLoginHandler.authenticate` throws when the
configuration token is missing (falsy), when the agents file content is
falsy (missing file), or when it has no truthy `agents` field; over a
stored list of comparable agent records it resolves to the first record
matching `scCode` and `fullName` case-insensitively, `password` exactly,
and `status` exactly `active` — so it resolves to a record if and only if
the list contains a matching record, and to `undefined` (`none`)
otherwise. -/
theorem authenticate_spec (token : Option String) (d : Val)
    (sc fn pw : String) :
    (optTruthy token = false →
      authenticate token d sc fn pw
        = .error ⟨"System configuration error. Please contact admin."⟩) ∧
    (optTruthy token = true → d.truthy = false →
      authenticate token d sc fn pw = .error ⟨"No agents found in system"⟩) ∧
    (optTruthy token = true → d.field "agents" = none →
      authenticate token d sc fn pw = .error ⟨"No agents found in system"⟩) ∧
    (∀ l : List Val, optTruthy token = true → d.truthy = true →
      d.field "agents" = some (.vlist l) →
      (∀ a ∈ l, agentComparable a = true) →
      authenticate token d sc fn pw
        = .ok (l.find? (agentMatches sc fn pw)) ∧
      ((l.find? (agentMatches sc fn pw)).isSome
        ↔ ∃ a ∈ l, agentMatches sc fn pw a = true) ∧
      (∀ a, l.find? (agentMatches sc fn pw) = some a →
        a ∈ l ∧ agentMatches sc fn pw a = true)) := by
  refine ⟨?_, ?_, ?_, ?_⟩
  · intro h
    simp [authenticate, h]
  · intro htok hd
    simp [authenticate, htok, hd]
  · intro htok hfield
    by_cases hdt : d.truthy = true <;>
      simp [authenticate, htok, hdt, hfield]
  · intro l htok hdt hfield hcomp
    refine ⟨?_, ?_, ?_⟩
    · unfold authenticate
      rw [htok, hdt, hfield]
      simp [Val.truthy, jsFind_eq_find? sc fn pw l hcomp]
    · simp
    · intro a hfind
      exact ⟨List.mem_of_find?_eq_some hfind, List.find?_some hfind⟩

/-- C10 witness: one active stored agent with matching credentials is
found and returned. -/
theorem authenticate_spec_witness :
    optTruthy (some "tok") = true ∧
      authenticate (some "tok")
          (.vobj [("agents", .vlist
            [.vobj [("scCode", .vstr "sc1"), ("fullName", .vstr "jane"),
                    ("password", .vstr "pw"), ("status", .vstr "active")]])])
          "sc1" "jane" "pw"
        = .ok (some (.vobj [("scCode", .vstr "sc1"),
            ("fullName", .vstr "jane"), ("password", .vstr "pw"),
            ("status", .vstr "active")])) := by
  refine ⟨by decide, ?_⟩
  have hmatch : agentMatches "sc1" "jane" "pw"
      (.vobj [("scCode", .vstr "sc1"), ("fullName", .vstr "jane"),
              ("password", .vstr "pw"), ("status", .vstr "active")]) = true := by
    simp [agentMatches, Val.field]
  have h := ((authenticate_spec (some "tok")
      (.vobj [("agents", .vlist
        [.vobj [("scCode", .vstr "sc1"), ("fullName", .vstr "jane"),
                ("password", .vstr "pw"), ("status", .vstr "active")]])])
      "sc1" "jane" "pw").2.2.2
      [.vobj [("scCode", .vstr "sc1"), ("fullName", .vstr "jane"),
              ("password", .vstr "pw"), ("status", .vstr "active")]]
      rfl rfl rfl (by intro a ha; simp at ha; subst ha; rfl)).1
  rw [h, List.find?_cons_of_pos _ hmatch]

end Ezee
